import Mathlib

/-!
Verification of the free-fall simulation component
(`src/FreeFallSimulation.tsx`).

The component's numeric state is embedded with exact rationals (`ℚ`):
the specification's kinematic statements are about the ideal arithmetic
that the JavaScript floating-point computation approximates, and every
constant of the source (`0.1`, `0.001`, `9.81`, …) is an exact decimal.
Stateful React hooks become explicit record updates; the `setInterval`
callback becomes a step function on a driver state carrying the
closure-local `time` variable.
-/

namespace FreeFall

/-- One row of the data table (`interface SimulationData`). -/
structure SimulationData where
  time : ℚ
  height : ℚ
  velocity : ℚ
  acceleration : ℚ
  displacement : ℚ
  mass : ℚ
  deriving DecidableEq

/-- The `simulationState` record (`interface SimulationState`). -/
structure SimulationState where
  isRunning : Bool
  time : ℚ
  currentHeight : ℚ
  currentVelocity : ℚ
  displacement : ℚ
  ballY : ℚ
  deriving DecidableEq

/-- The simulation parameters fixed while a run is active: the
`initialVelocity`, `initialHeight`, `mass` state hooks and the derived
`gravity` value (planet gravity or custom gravity). -/
structure Params where
  initialVelocity : ℚ
  initialHeight : ℚ
  mass : ℚ
  gravity : ℚ
  deriving DecidableEq

/-- The component state touched by the simulation and table logic:
`simulationState`, `dataHistory`, `trail` and the two pagination
cursors.  Cursors are integers so that arbitrary page-change requests
can be expressed. -/
structure ComponentState where
  simulationState : SimulationState
  dataHistory : List SimulationData
  trail : List ℚ
  mainTableCurrentPage : ℤ
  modalCurrentPage : ℤ
  deriving DecidableEq

/-- `const itemsPerPage = 20`. -/
def itemsPerPage : ℕ := 20

/-- `const SCALE = 4`. -/
def SCALE : ℚ := 4

/-- `const CANVAS_HEIGHT = 480`. -/
def CANVAS_HEIGHT : ℚ := 480

/-- `const ballRadius = Math.min(20, 8 + mass * 2)`. -/
def ballRadius (p : Params) : ℚ := min 20 (8 + p.mass * 2)

/-- `calculateInitialBallY`: `Math.max(ballRadius, CANVAS_HEIGHT - ballRadius - 4 - initialHeight * SCALE)`. -/
def calculateInitialBallY (p : Params) : ℚ :=
  max (ballRadius p) (CANVAS_HEIGHT - ballRadius p - 4 - p.initialHeight * SCALE)

/-- `parseFloat(x.toFixed(2))`: rounding to two decimal places
(ties modelled as round-half-up, which the claims never depend on). -/
def round2 (q : ℚ) : ℚ := ((round (q * 100) : ℤ) : ℚ) / 100

/-- `parseFloat(x.toFixed(1))`: rounding to one decimal place. -/
def round1 (q : ℚ) : ℚ := ((round (q * 10) : ℤ) : ℚ) / 10

/-- `const velocity = initialVelocity + gravity * time` (tick callback). -/
def tickVelocity (p : Params) (time : ℚ) : ℚ :=
  p.initialVelocity + p.gravity * time

/-- `const displacement = initialVelocity * time + 0.5 * gravity * time * time`. -/
def tickDisplacement (p : Params) (time : ℚ) : ℚ :=
  p.initialVelocity * time + (1/2) * p.gravity * time * time

/-- `const currentHeight = Math.max(0, initialHeight - displacement)`. -/
def tickHeight (p : Params) (time : ℚ) : ℚ :=
  max 0 (p.initialHeight - tickDisplacement p time)

/-- The `newData` record built by the tick callback: every field of the
locals `time`, `currentHeight`, `velocity`, `gravity`, `displacement`,
`mass` rounded at creation. -/
def mkRecord (p : Params) (time : ℚ) : SimulationData :=
  { time := round2 time
    height := round2 (tickHeight p time)
    velocity := round2 (tickVelocity p time)
    acceleration := round2 p.gravity
    displacement := round2 (tickDisplacement p time)
    mass := round1 p.mass }

/-- The `setTrail` updater: append, then `slice(-30)` (keep the last 30)
whenever the length exceeds 30. -/
def pushTrail (prev : List ℚ) (y : ℚ) : List ℚ :=
  let newTrail := prev ++ [y]
  if newTrail.length > 30 then newTrail.drop (newTrail.length - 30) else newTrail

/-- One firing of the `setInterval` callback inside `startSimulation`:
advance the closure-local `time` by `0.1`, recompute the kinematic
state, push the ball position on the trail, append a rounded record,
and stop the driver (`stopSimulation`) when `currentHeight <= 0.001`.
Returns the updated component state together with the new value of the
closure-local `time`. -/
def tickOnce (p : Params) (c : ComponentState) (time0 : ℚ) : ComponentState × ℚ :=
  let time := time0 + 1/10
  let velocity := tickVelocity p time
  let displacement := tickDisplacement p time
  let currentHeight := tickHeight p time
  let ballY := calculateInitialBallY p + displacement * SCALE
  let actualBallY := min ballY (CANVAS_HEIGHT - ballRadius p - 4)
  let c' : ComponentState :=
    { c with
      simulationState :=
        { isRunning := c.simulationState.isRunning
          time := time
          currentHeight := currentHeight
          currentVelocity := velocity
          displacement := displacement
          ballY := actualBallY }
      trail := pushTrail c.trail actualBallY
      dataHistory := c.dataHistory ++ [mkRecord p time] }
  if currentHeight ≤ 1/1000 then
    ({ c' with simulationState := { c'.simulationState with isRunning := false } }, time)
  else
    (c', time)

/-- `startSimulation`: no-op while running; otherwise reinitialise the
simulation state, clear the history and trail, and reset both
pagination cursors to 1 (the interval itself is modelled by `applyOp`). -/
def startSimulation (p : Params) (c : ComponentState) : ComponentState :=
  if c.simulationState.isRunning then c
  else
    { simulationState :=
        { isRunning := true
          time := 0
          currentHeight := p.initialHeight
          currentVelocity := p.initialVelocity
          displacement := 0
          ballY := calculateInitialBallY p }
      dataHistory := []
      trail := []
      mainTableCurrentPage := 1
      modalCurrentPage := 1 }

/-- `restartSimulation`: stop the driver and reinitialise every piece of
state from the current parameters (its result does not depend on the
previous component state). -/
def restartSimulation (p : Params) : ComponentState :=
  { simulationState :=
      { isRunning := false
        time := 0
        currentHeight := p.initialHeight
        currentVelocity := p.initialVelocity
        displacement := 0
        ballY := calculateInitialBallY p }
    dataHistory := []
    trail := []
    mainTableCurrentPage := 1
    modalCurrentPage := 1 }

/-- `const mainTotalPages = Math.ceil(dataHistory.length / itemsPerPage)`. -/
def mainTotalPages (c : ComponentState) : ℕ :=
  Nat.ceil ((c.dataHistory.length : ℚ) / (itemsPerPage : ℚ))

/-- `const modalTotalPages = Math.ceil(dataHistory.length / itemsPerPage)`. -/
def modalTotalPages (c : ComponentState) : ℕ :=
  Nat.ceil ((c.dataHistory.length : ℚ) / (itemsPerPage : ℚ))

/-- `const mainStartIndex = (mainTableCurrentPage - 1) * itemsPerPage`. -/
def mainStartIndex (c : ComponentState) : ℤ :=
  (c.mainTableCurrentPage - 1) * (itemsPerPage : ℤ)

/-- `const mainEndIndex = mainStartIndex + itemsPerPage`. -/
def mainEndIndex (c : ComponentState) : ℤ :=
  mainStartIndex c + (itemsPerPage : ℤ)

/-- `const modalStartIndex = (modalCurrentPage - 1) * itemsPerPage`. -/
def modalStartIndex (c : ComponentState) : ℤ :=
  (c.modalCurrentPage - 1) * (itemsPerPage : ℤ)

/-- `const modalEndIndex = modalStartIndex + itemsPerPage`. -/
def modalEndIndex (c : ComponentState) : ℤ :=
  modalStartIndex c + (itemsPerPage : ℤ)

/-- `Array.prototype.slice(s, e)` for the index ranges the component
uses (`0 ≤ s`, `s ≤ e`; the cursors never go below 1, so the start
index never goes below 0). -/
def jsSlice {α : Type} (l : List α) (s e : ℤ) : List α :=
  (l.drop s.toNat).take (e - s).toNat

/-- `const mainCurrentData = dataHistory.slice(mainStartIndex, mainEndIndex)`. -/
def mainCurrentData (c : ComponentState) : List SimulationData :=
  jsSlice c.dataHistory (mainStartIndex c) (mainEndIndex c)

/-- `const modalCurrentData = dataHistory.slice(modalStartIndex, modalEndIndex)`. -/
def modalCurrentData (c : ComponentState) : List SimulationData :=
  jsSlice c.dataHistory (modalStartIndex c) (modalEndIndex c)

/-- `handleMainTablePageChange`: set the main cursor only when
`page >= 1 && page <= mainTotalPages`. -/
def handleMainTablePageChange (c : ComponentState) (page : ℤ) : ComponentState :=
  if 1 ≤ page ∧ page ≤ (mainTotalPages c : ℤ) then
    { c with mainTableCurrentPage := page }
  else c

/-- `handleModalPageChange`: set the modal cursor only when
`page >= 1 && page <= modalTotalPages`. -/
def handleModalPageChange (c : ComponentState) (page : ℤ) : ComponentState :=
  if 1 ≤ page ∧ page ≤ (modalTotalPages c : ℤ) then
    { c with modalCurrentPage := page }
  else c

/-- One decimal digit character (helper for `natDigitsRev`). -/
def digitCharAux : ℕ → Char
  | 0 => '0'
  | 1 => '1'
  | 2 => '2'
  | 3 => '3'
  | 4 => '4'
  | 5 => '5'
  | 6 => '6'
  | 7 => '7'
  | 8 => '8'
  | _ => '9'

/-- The character for the digit `d % 10`. -/
def digitChar (d : ℕ) : Char := digitCharAux (d % 10)

/-- Decimal digits of a natural number, least significant first. -/
def natDigitsRev (n : ℕ) : List Char :=
  if h : n < 10 then [digitChar n]
  else digitChar (n % 10) :: natDigitsRev (n / 10)
  termination_by n
  decreasing_by exact Nat.div_lt_self (by omega) (by omega)

/-- Decimal digits of a natural number, most significant first. -/
def natStr (n : ℕ) : List Char := (natDigitsRev n).reverse

/-- Models `Number.prototype.toString` for the values the component
prints: every record field is a multiple of `1/100`, so the number is
rendered from its integer amount of hundredths, with trailing
fractional zeros dropped exactly as JavaScript's shortest decimal
representation does (exponent forms for extreme magnitudes are outside
the component's range and not modelled). -/
def fmtNumber (q : ℚ) : List Char :=
  let n : ℤ := Int.floor (q * 100)
  let sign : List Char := if n < 0 then ['-'] else []
  let m : ℕ := n.natAbs
  let ip : ℕ := m / 100
  let fp : ℕ := m % 100
  sign ++ natStr ip ++
    (if fp = 0 then []
     else if fp % 10 = 0 then '.' :: natStr (fp / 10)
     else if fp < 10 then '.' :: '0' :: natStr fp
     else '.' :: natStr fp)

/-- `String.prototype.replace('.', ',')`: replaces only the first
occurrence of the dot. -/
def replaceDot : List Char → List Char
  | [] => []
  | c :: cs => if c = '.' then ',' :: cs else c :: replaceDot cs

/-- One CSV field: `row.field.toString().replace('.', ',')`. -/
def csvField (q : ℚ) : List Char := replaceDot (fmtNumber q)

/-- The `headers` array of `downloadCSV`. -/
def csvHeaders : List (List Char) :=
  ["Zaman (s)".data, "Yükseklik (m)".data, "Hız (m/s)".data,
   "İvme (m/s²)".data, "Yer Değiştirme (m)".data, "Kütle (kg)".data]

/-- The six fields of one CSV data row, in source order. -/
def csvRow (r : SimulationData) : List (List Char) :=
  [csvField r.time, csvField r.height, csvField r.velocity,
   csvField r.acceleration, csvField r.displacement, csvField r.mass]

/-- `Array.prototype.join(sep)` for a one-character separator. -/
def joinSep (sep : Char) : List (List Char) → List Char
  | [] => []
  | [f] => f
  | f :: fs => f ++ sep :: joinSep sep fs

/-- The array `[headers.join(';'), ...dataHistory.map(row => ...join(';'))]`
whose elements become the lines of the CSV document. -/
def csvLines (h : List SimulationData) : List (List Char) :=
  joinSep ';' csvHeaders :: h.map (fun r => joinSep ';' (csvRow r))

/-- `const csvContent = [...].join('\n')`. -/
def csvContent (h : List SimulationData) : List Char :=
  joinSep '\n' (csvLines h)

/-- `downloadCSV`: early return on empty history, otherwise serialize
the full history.  The component state is returned unchanged alongside
the produced document (`none` when nothing is produced). -/
def downloadCSV (c : ComponentState) : ComponentState × Option (List Char) :=
  if c.dataHistory.length = 0 then (c, none)
  else (c, some (csvContent c.dataHistory))

/-- Driver-level state: the component state together with the
closure-local `time` variable of `startSimulation`'s interval callback
and a ghost log of every position appended to the trail since the trail
was last cleared (used to express the FIFO property of the trail). -/
structure DriverState where
  comp : ComponentState
  elapsed : ℚ
  appended : List ℚ
  deriving DecidableEq

/-- The user/timer events that drive the simulation. -/
inductive SimOp where
  | start
  | tick
  | reset
  deriving DecidableEq

/-- The effect of one event: `start` is `startSimulation` (a no-op
while running, otherwise it also resets the closure-local time and the
append log is cleared with the trail); `tick` is one firing of the
interval callback, which exists only while the driver runs (the
interval is cleared exactly when `isRunning` becomes false); `reset` is
`restartSimulation`. -/
def applyOp (p : Params) (op : SimOp) (d : DriverState) : DriverState :=
  match op with
  | SimOp.start =>
      if d.comp.simulationState.isRunning then d
      else { comp := startSimulation p d.comp, elapsed := 0, appended := [] }
  | SimOp.tick =>
      if d.comp.simulationState.isRunning then
        { comp := (tickOnce p d.comp d.elapsed).1
          elapsed := (tickOnce p d.comp d.elapsed).2
          appended := d.appended ++ [(tickOnce p d.comp d.elapsed).1.simulationState.ballY] }
      else d
  | SimOp.reset =>
      { comp := restartSimulation p, elapsed := d.elapsed, appended := [] }

/-- The component state right after mount: the `useEffect` hook invokes
`restartSimulation` once. -/
def initDriver (p : Params) : DriverState :=
  { comp := restartSimulation p, elapsed := 0, appended := [] }

/-- Run a sequence of events. -/
def runOps (p : Params) (ops : List SimOp) (d : DriverState) : DriverState :=
  ops.foldl (fun s op => applyOp p op s) d

/-- A fresh run: `startSimulation` followed by `n` interval firings. -/
def tickRun (p : Params) (n : ℕ) : DriverState :=
  runOps p (SimOp.start :: List.replicate n SimOp.tick) (initDriver p)

/-- A page-change request addressed to one of the two tables. -/
inductive PageOp where
  | mainPage (page : ℤ)
  | modalPage (page : ℤ)
  deriving DecidableEq

/-- Whether a page-change request addresses the modal table. -/
def PageOp.isModal : PageOp → Bool
  | PageOp.mainPage _ => false
  | PageOp.modalPage _ => true

/-- Dispatch a page-change request to its handler. -/
def applyPageOp (c : ComponentState) (op : PageOp) : ComponentState :=
  match op with
  | PageOp.mainPage pg => handleMainTablePageChange c pg
  | PageOp.modalPage pg => handleModalPageChange c pg

/-- Run a sequence of page-change requests. -/
def runPageOps (c : ComponentState) (ops : List PageOp) : ComponentState :=
  ops.foldl applyPageOp c

/-- Example parameters: the component defaults (Earth). -/
def exampleParams : Params :=
  { initialVelocity := 0, initialHeight := 50, mass := 1, gravity := 981/100 }

/-- Three records, as a concrete non-empty history. -/
def exampleHistory : List SimulationData :=
  [mkRecord exampleParams (1/10), mkRecord exampleParams (2/10),
   mkRecord exampleParams (3/10)]

/-- A concrete idle component holding three records. -/
def exampleComp : ComponentState :=
  { simulationState :=
      { isRunning := false, time := 0, currentHeight := 50
        currentVelocity := 0, displacement := 0, ballY := 0 }
    dataHistory := exampleHistory
    trail := []
    mainTableCurrentPage := 1
    modalCurrentPage := 1 }

/-! ### Pagination lemmas -/

lemma ceil_div_twenty (L : ℕ) : Nat.ceil ((L : ℚ) / 20) = (L + 19) / 20 := by
  rcases Nat.eq_zero_or_pos L with hL | hL
  · subst hL; simp
  · have h20 : (0:ℚ) < 20 := by norm_num
    have hne : (L + 19) / 20 ≠ 0 := by omega
    rw [Nat.ceil_eq_iff hne]
    constructor
    · rw [lt_div_iff₀ h20]
      have h1 : ((L + 19) / 20 - 1) * 20 < L := by omega
      exact_mod_cast h1
    · rw [div_le_iff₀ h20]
      have h2 : L ≤ ((L + 19) / 20) * 20 := by omega
      exact_mod_cast h2

lemma mainTotalPages_eq (c : ComponentState) :
    mainTotalPages c = (c.dataHistory.length + 19) / 20 := by
  unfold mainTotalPages
  rw [show ((itemsPerPage : ℕ) : ℚ) = 20 by norm_num [itemsPerPage]]
  exact ceil_div_twenty _

lemma modalTotalPages_eq (c : ComponentState) :
    modalTotalPages c = (c.dataHistory.length + 19) / 20 := by
  unfold modalTotalPages
  rw [show ((itemsPerPage : ℕ) : ℚ) = 20 by norm_num [itemsPerPage]]
  exact ceil_div_twenty _

/-- Claim C3: for a history of length `L` and page size 20 the page count
is `ceil(L/20)` (equivalently `(L+19)/20`), the page shown for a cursor
`c ≥ 1` is the slice of the history from index `(c-1)*20` up to
(excluding) `c*20` clamped to the history bounds, page 1 starts at
index 0, and the last page of a non-empty history has `L mod 20`
entries (20 when `L` is divisible by 20). -/
theorem freefall_C3 (c : ComponentState) (hcur : 1 ≤ c.mainTableCurrentPage) :
    mainTotalPages c = (c.dataHistory.length + 19) / 20 ∧
    mainCurrentData c =
      (c.dataHistory.take (c.mainTableCurrentPage.toNat * 20)).drop
        ((c.mainTableCurrentPage.toNat - 1) * 20) ∧
    (c.mainTableCurrentPage = 1 → mainCurrentData c = c.dataHistory.take 20) ∧
    (0 < c.dataHistory.length → c.mainTableCurrentPage = (mainTotalPages c : ℤ) →
      (mainCurrentData c).length =
        if c.dataHistory.length % 20 = 0 then 20 else c.dataHistory.length % 20) := by
  refine ⟨mainTotalPages_eq c, ?_, ?_, ?_⟩
  · simp only [mainCurrentData, jsSlice, mainEndIndex, mainStartIndex]
    rw [List.drop_take]
    have h1 : ((c.mainTableCurrentPage - 1) * (itemsPerPage : ℤ)).toNat =
        (c.mainTableCurrentPage.toNat - 1) * 20 := by
      simp only [itemsPerPage]; omega
    have h2 : ((c.mainTableCurrentPage - 1) * (itemsPerPage : ℤ) + (itemsPerPage : ℤ) -
        (c.mainTableCurrentPage - 1) * (itemsPerPage : ℤ)).toNat = 20 := by
      simp only [itemsPerPage]; omega
    have h3 : c.mainTableCurrentPage.toNat * 20 - (c.mainTableCurrentPage.toNat - 1) * 20 = 20 := by
      omega
    rw [h1, h2, h3]
  · intro hp
    simp only [mainCurrentData, jsSlice, mainEndIndex, mainStartIndex]
    rw [hp]
    norm_num [itemsPerPage]
    rfl
  · intro hL hp
    have htp := mainTotalPages_eq c
    simp only [mainCurrentData, jsSlice, mainEndIndex, mainStartIndex]
    rw [hp, htp]
    simp only [itemsPerPage, List.length_take, List.length_drop]
    split_ifs with h <;> omega

theorem freefall_C3_witness :
    mainTotalPages exampleComp = (exampleComp.dataHistory.length + 19) / 20 ∧
    mainCurrentData exampleComp =
      (exampleComp.dataHistory.take (exampleComp.mainTableCurrentPage.toNat * 20)).drop
        ((exampleComp.mainTableCurrentPage.toNat - 1) * 20) ∧
    (exampleComp.mainTableCurrentPage = 1 →
      mainCurrentData exampleComp = exampleComp.dataHistory.take 20) ∧
    (0 < exampleComp.dataHistory.length →
      exampleComp.mainTableCurrentPage = (mainTotalPages exampleComp : ℤ) →
      (mainCurrentData exampleComp).length =
        if exampleComp.dataHistory.length % 20 = 0 then 20
        else exampleComp.dataHistory.length % 20) :=
  freefall_C3 exampleComp (by decide)

/-- Claim C5: a page-change request outside `[1, totalPages]` leaves the
component unchanged (a no-op, not an error), and every accepted request
leaves the cursor within `[1, totalPages]`. -/
theorem freefall_C5 (c : ComponentState) (page : ℤ) :
    (¬ (1 ≤ page ∧ page ≤ (mainTotalPages c : ℤ)) → handleMainTablePageChange c page = c) ∧
    (¬ (1 ≤ page ∧ page ≤ (modalTotalPages c : ℤ)) → handleModalPageChange c page = c) ∧
    (1 ≤ page → page ≤ (mainTotalPages c : ℤ) →
      1 ≤ (handleMainTablePageChange c page).mainTableCurrentPage ∧
      (handleMainTablePageChange c page).mainTableCurrentPage ≤ (mainTotalPages c : ℤ)) ∧
    (1 ≤ page → page ≤ (modalTotalPages c : ℤ) →
      1 ≤ (handleModalPageChange c page).modalCurrentPage ∧
      (handleModalPageChange c page).modalCurrentPage ≤ (modalTotalPages c : ℤ)) := by
  refine ⟨?_, ?_, ?_, ?_⟩
  · intro h; unfold handleMainTablePageChange; rw [if_neg h]
  · intro h; unfold handleModalPageChange; rw [if_neg h]
  · intro h1 h2; unfold handleMainTablePageChange; rw [if_pos ⟨h1, h2⟩]; exact ⟨h1, h2⟩
  · intro h1 h2; unfold handleModalPageChange; rw [if_pos ⟨h1, h2⟩]; exact ⟨h1, h2⟩

theorem freefall_C5_witness :
    handleMainTablePageChange exampleComp 5 = exampleComp ∧
    1 ≤ (handleMainTablePageChange exampleComp 1).mainTableCurrentPage ∧
    (handleMainTablePageChange exampleComp 1).mainTableCurrentPage ≤
      (mainTotalPages exampleComp : ℤ) := by
  refine ⟨(freefall_C5 exampleComp 5).1 ?_, (freefall_C5 exampleComp 1).2.2.1 ?_ ?_⟩
  · rw [mainTotalPages_eq]; decide
  · decide
  · rw [mainTotalPages_eq]; decide

/-! ### Independence of the two pagination cursors -/

lemma handleModalPageChange_preserves (c : ComponentState) (pg : ℤ) :
    (handleModalPageChange c pg).mainTableCurrentPage = c.mainTableCurrentPage ∧
    (handleModalPageChange c pg).dataHistory = c.dataHistory := by
  unfold handleModalPageChange; split_ifs <;> exact ⟨rfl, rfl⟩

lemma handleMainTablePageChange_preserves (c : ComponentState) (pg : ℤ) :
    (handleMainTablePageChange c pg).modalCurrentPage = c.modalCurrentPage ∧
    (handleMainTablePageChange c pg).dataHistory = c.dataHistory := by
  unfold handleMainTablePageChange; split_ifs <;> exact ⟨rfl, rfl⟩

lemma mainCurrentData_congr {c₁ c₂ : ComponentState}
    (hd : c₁.dataHistory = c₂.dataHistory)
    (hp : c₁.mainTableCurrentPage = c₂.mainTableCurrentPage) :
    mainCurrentData c₁ = mainCurrentData c₂ := by
  simp only [mainCurrentData, jsSlice, mainEndIndex, mainStartIndex]; rw [hd, hp]

lemma modalCurrentData_congr {c₁ c₂ : ComponentState}
    (hd : c₁.dataHistory = c₂.dataHistory)
    (hp : c₁.modalCurrentPage = c₂.modalCurrentPage) :
    modalCurrentData c₁ = modalCurrentData c₂ := by
  simp only [modalCurrentData, jsSlice, modalEndIndex, modalStartIndex]; rw [hd, hp]

lemma runPageOps_modal (ops : List PageOp) : ∀ c : ComponentState,
    (∀ op ∈ ops, op.isModal = true) →
    (runPageOps c ops).mainTableCurrentPage = c.mainTableCurrentPage ∧
    (runPageOps c ops).dataHistory = c.dataHistory := by
  induction ops with
  | nil => intro c _; exact ⟨rfl, rfl⟩
  | cons op t ih =>
    intro c hall
    have hop : op.isModal = true := hall op (by simp)
    have ht : ∀ o ∈ t, o.isModal = true := fun o ho => hall o (by simp [ho])
    obtain ⟨h1, h2⟩ := ih (applyPageOp c op) ht
    cases op with
    | mainPage pg => simp [PageOp.isModal] at hop
    | modalPage pg =>
      have hpre := handleModalPageChange_preserves c pg
      refine ⟨?_, ?_⟩
      · calc (runPageOps c (PageOp.modalPage pg :: t)).mainTableCurrentPage
            = (applyPageOp c (PageOp.modalPage pg)).mainTableCurrentPage := h1
          _ = c.mainTableCurrentPage := hpre.1
      · calc (runPageOps c (PageOp.modalPage pg :: t)).dataHistory
            = (applyPageOp c (PageOp.modalPage pg)).dataHistory := h2
          _ = c.dataHistory := hpre.2

lemma runPageOps_main (ops : List PageOp) : ∀ c : ComponentState,
    (∀ op ∈ ops, op.isModal = false) →
    (runPageOps c ops).modalCurrentPage = c.modalCurrentPage ∧
    (runPageOps c ops).dataHistory = c.dataHistory := by
  induction ops with
  | nil => intro c _; exact ⟨rfl, rfl⟩
  | cons op t ih =>
    intro c hall
    have hop : op.isModal = false := hall op (by simp)
    have ht : ∀ o ∈ t, o.isModal = false := fun o ho => hall o (by simp [ho])
    obtain ⟨h1, h2⟩ := ih (applyPageOp c op) ht
    cases op with
    | modalPage pg => simp [PageOp.isModal] at hop
    | mainPage pg =>
      have hpre := handleMainTablePageChange_preserves c pg
      refine ⟨?_, ?_⟩
      · calc (runPageOps c (PageOp.mainPage pg :: t)).modalCurrentPage
            = (applyPageOp c (PageOp.mainPage pg)).modalCurrentPage := h1
          _ = c.modalCurrentPage := hpre.1
      · calc (runPageOps c (PageOp.mainPage pg :: t)).dataHistory
            = (applyPageOp c (PageOp.mainPage pg)).dataHistory := h2
          _ = c.dataHistory := hpre.2

/-- Claim C6: over any sequence of page-change requests on the shared
history, requests addressed to the modal table never alter the inline
table's cursor or its displayed slice, and requests addressed to the
inline table never alter the modal table's cursor or its displayed
slice. -/
theorem freefall_C6 (c : ComponentState) (ops : List PageOp) :
    ((∀ op ∈ ops, op.isModal = true) →
      (runPageOps c ops).mainTableCurrentPage = c.mainTableCurrentPage ∧
      mainCurrentData (runPageOps c ops) = mainCurrentData c) ∧
    ((∀ op ∈ ops, op.isModal = false) →
      (runPageOps c ops).modalCurrentPage = c.modalCurrentPage ∧
      modalCurrentData (runPageOps c ops) = modalCurrentData c) := by
  constructor
  · intro hall
    obtain ⟨h1, h2⟩ := runPageOps_modal ops c hall
    exact ⟨h1, mainCurrentData_congr h2 h1⟩
  · intro hall
    obtain ⟨h1, h2⟩ := runPageOps_main ops c hall
    exact ⟨h1, modalCurrentData_congr h2 h1⟩

theorem freefall_C6_witness :
    ((runPageOps exampleComp [PageOp.modalPage 1]).mainTableCurrentPage =
        exampleComp.mainTableCurrentPage ∧
      mainCurrentData (runPageOps exampleComp [PageOp.modalPage 1]) =
        mainCurrentData exampleComp) ∧
    ((runPageOps exampleComp [PageOp.mainPage 1]).modalCurrentPage =
        exampleComp.modalCurrentPage ∧
      modalCurrentData (runPageOps exampleComp [PageOp.mainPage 1]) =
        modalCurrentData exampleComp) :=
  ⟨(freefall_C6 exampleComp [PageOp.modalPage 1]).1 (by decide),
   (freefall_C6 exampleComp [PageOp.mainPage 1]).2 (by decide)⟩

/-- Claim C9: invoked on an empty history, the export function performs
no action: it produces no document and the component state is returned
unchanged. -/
theorem freefall_C9 (c : ComponentState) (h : c.dataHistory = []) :
    downloadCSV c = (c, none) := by
  unfold downloadCSV
  rw [if_pos (by rw [h]; rfl)]

theorem freefall_C9_witness :
    downloadCSV (restartSimulation exampleParams) = (restartSimulation exampleParams, none) :=
  freefall_C9 (restartSimulation exampleParams) rfl

/-- Claim C10: starting from a non-running state clears the history and
the trail and resets both pagination cursors to 1 (and marks the driver
running) before any tick fires; starting while already running changes
nothing. -/
theorem freefall_C10 (p : Params) (c : ComponentState) :
    (c.simulationState.isRunning = false →
      (startSimulation p c).dataHistory = [] ∧
      (startSimulation p c).trail = [] ∧
      (startSimulation p c).mainTableCurrentPage = 1 ∧
      (startSimulation p c).modalCurrentPage = 1 ∧
      (startSimulation p c).simulationState.isRunning = true) ∧
    (c.simulationState.isRunning = true → startSimulation p c = c) := by
  constructor
  · intro h; unfold startSimulation; rw [h]; simp
  · intro h; unfold startSimulation; rw [h]; simp

theorem freefall_C10_witness :
    (startSimulation exampleParams exampleComp).dataHistory = [] ∧
    (startSimulation exampleParams exampleComp).trail = [] ∧
    (startSimulation exampleParams exampleComp).mainTableCurrentPage = 1 ∧
    (startSimulation exampleParams exampleComp).modalCurrentPage = 1 ∧
    (startSimulation exampleParams exampleComp).simulationState.isRunning = true :=
  (freefall_C10 exampleParams exampleComp).1 rfl

/-! ### The tick driver -/

lemma round2_nonneg (q : ℚ) (h : 0 ≤ q) : 0 ≤ round2 q := by
  unfold round2
  have h2 : (0 : ℤ) ≤ round (q * 100) := by
    rw [round_eq]
    exact Int.le_floor.mpr (by push_cast; linarith)
  have h3 : (0 : ℚ) ≤ ((round (q * 100) : ℤ) : ℚ) := by exact_mod_cast h2
  linarith

lemma tickOnce_spec (p : Params) (c : ComponentState) (t0 : ℚ) :
    (tickOnce p c t0).2 = t0 + 1/10 ∧
    (tickOnce p c t0).1.dataHistory = c.dataHistory ++ [mkRecord p (t0 + 1/10)] ∧
    (tickOnce p c t0).1.simulationState.time = t0 + 1/10 ∧
    (tickOnce p c t0).1.simulationState.currentVelocity = tickVelocity p (t0 + 1/10) ∧
    (tickOnce p c t0).1.simulationState.displacement = tickDisplacement p (t0 + 1/10) ∧
    (tickOnce p c t0).1.simulationState.currentHeight = tickHeight p (t0 + 1/10) ∧
    (tickOnce p c t0).1.trail = pushTrail c.trail ((tickOnce p c t0).1.simulationState.ballY) ∧
    ((tickOnce p c t0).1.simulationState.isRunning =
      if tickHeight p (t0 + 1/10) ≤ 1/1000 then false else c.simulationState.isRunning) := by
  unfold tickOnce
  dsimp only
  split_ifs with h <;> simp [h]

lemma applyOp_tick_not_running (p : Params) (d : DriverState)
    (h : d.comp.simulationState.isRunning = false) :
    applyOp p SimOp.tick d = d := by
  simp [applyOp, h]

lemma applyOp_tick_running (p : Params) (d : DriverState)
    (h : d.comp.simulationState.isRunning = true) :
    applyOp p SimOp.tick d =
      { comp := (tickOnce p d.comp d.elapsed).1
        elapsed := (tickOnce p d.comp d.elapsed).2
        appended := d.appended ++ [(tickOnce p d.comp d.elapsed).1.simulationState.ballY] } := by
  simp [applyOp, h]

lemma tickRun_zero (p : Params) :
    tickRun p 0 =
      { comp :=
          { simulationState :=
              { isRunning := true, time := 0, currentHeight := p.initialHeight,
                currentVelocity := p.initialVelocity, displacement := 0,
                ballY := calculateInitialBallY p }
            dataHistory := [], trail := [],
            mainTableCurrentPage := 1, modalCurrentPage := 1 }
        elapsed := 0, appended := [] } := rfl

lemma tickRun_succ (p : Params) (n : ℕ) :
    tickRun p (n + 1) = applyOp p SimOp.tick (tickRun p n) := by
  unfold tickRun runOps
  rw [List.replicate_succ',
    show SimOp.start :: (List.replicate n SimOp.tick ++ [SimOp.tick]) =
      (SimOp.start :: List.replicate n SimOp.tick) ++ [SimOp.tick] from rfl,
    List.foldl_append]
  rfl

/-- The run invariant: after `start` and `n` interval firings some
`k ≤ n` ticks have executed, the history holds one record per executed
tick, the closure-local time is `k/10`, the driver is still running
only when no tick stopped it (`k = n`), and the simulation state holds
the closed-form kinematics at `t = k/10`. -/
lemma tickRun_inv (p : Params) (n : ℕ) :
    ∃ k : ℕ, k ≤ n ∧
      (tickRun p n).comp.dataHistory.length = k ∧
      (tickRun p n).elapsed = (k : ℚ) / 10 ∧
      ((tickRun p n).comp.simulationState.isRunning = true → k = n) ∧
      (0 ≤ p.initialHeight →
        (tickRun p n).comp.simulationState.time = (k : ℚ) / 10 ∧
        (tickRun p n).comp.simulationState.currentVelocity = tickVelocity p ((k : ℚ) / 10) ∧
        (tickRun p n).comp.simulationState.displacement = tickDisplacement p ((k : ℚ) / 10) ∧
        (tickRun p n).comp.simulationState.currentHeight = tickHeight p ((k : ℚ) / 10)) := by
  induction n with
  | zero =>
    refine ⟨0, le_refl 0, ?_, ?_, fun _ => rfl, fun h0 => ⟨?_, ?_, ?_, ?_⟩⟩
    · rw [tickRun_zero]; rfl
    · rw [tickRun_zero]; norm_num
    · rw [tickRun_zero]; norm_num
    · rw [tickRun_zero]; norm_num [tickVelocity]
    · rw [tickRun_zero]; norm_num [tickDisplacement]
    · rw [tickRun_zero]
      have hmax : max 0 p.initialHeight = p.initialHeight := max_eq_right h0
      norm_num [tickHeight, tickDisplacement, hmax]
  | succ n ih =>
    obtain ⟨k, hk, hlen, helap, hrun, hfields⟩ := ih
    rw [tickRun_succ]
    cases hr : (tickRun p n).comp.simulationState.isRunning with
    | false =>
      rw [applyOp_tick_not_running p _ hr]
      exact ⟨k, by omega, hlen, helap, fun habs => absurd habs (by simp [hr]), hfields⟩
    | true =>
      have hkn : k = n := hrun hr
      rw [applyOp_tick_running p _ hr]
      obtain ⟨he2, hdh, htm, hv, hd, hh, -, -⟩ :=
        tickOnce_spec p (tickRun p n).comp (tickRun p n).elapsed
      have htime : (tickRun p n).elapsed + 1/10 = (((n : ℕ) + 1 : ℕ) : ℚ) / 10 := by
        rw [helap, hkn]; push_cast; ring
      refine ⟨n + 1, le_refl _, ?_, ?_, fun _ => rfl, fun _ => ⟨?_, ?_, ?_, ?_⟩⟩
      · dsimp only; rw [hdh, List.length_append, hlen, hkn]; rfl
      · dsimp only; rw [he2, htime]
      · dsimp only; rw [htm, htime]
      · dsimp only; rw [hv, htime]
      · dsimp only; rw [hd, htime]
      · dsimp only; rw [hh, htime]

/-- Claim C1: for valid parameters and any run of `n` executed ticks
(`t = n·0.1`), the driver's state satisfies `velocity = v0 + g·t`,
`displacement = v0·t + ½·g·t²` and `height = max(0, h0 - displacement)`. -/
theorem freefall_C1 (p : Params) (n : ℕ)
    (hh : 1 ≤ p.initialHeight) (hm : 1/10 ≤ p.mass) (hg : 1/10 ≤ p.gravity)
    (hlen : (tickRun p n).comp.dataHistory.length = n) :
    (tickRun p n).comp.simulationState.time = (n : ℚ) * (1/10) ∧
    (tickRun p n).comp.simulationState.currentVelocity =
      p.initialVelocity + p.gravity * ((n : ℚ) * (1/10)) ∧
    (tickRun p n).comp.simulationState.displacement =
      p.initialVelocity * ((n : ℚ) * (1/10)) +
        (1/2) * p.gravity * ((n : ℚ) * (1/10))^2 ∧
    (tickRun p n).comp.simulationState.currentHeight =
      max 0 (p.initialHeight -
        (p.initialVelocity * ((n : ℚ) * (1/10)) +
          (1/2) * p.gravity * ((n : ℚ) * (1/10))^2)) := by
  obtain ⟨k, -, hlen', -, -, hfields⟩ := tickRun_inv p n
  have hkn : k = n := hlen'.symm.trans hlen
  have h0 : (0 : ℚ) ≤ p.initialHeight := le_trans zero_le_one hh
  obtain ⟨htm, hv, hd, hht⟩ := hfields h0
  rw [hkn] at htm hv hd hht
  refine ⟨?_, ?_, ?_, ?_⟩
  · rw [htm]; ring
  · rw [hv, tickVelocity]; ring
  · rw [hd, tickDisplacement]; ring
  · rw [hht, tickHeight, tickDisplacement]; congr 1; ring

theorem freefall_C1_witness :
    (tickRun exampleParams 2).comp.simulationState.time = ((2 : ℕ) : ℚ) * (1/10) ∧
    (tickRun exampleParams 2).comp.simulationState.currentVelocity =
      exampleParams.initialVelocity + exampleParams.gravity * (((2 : ℕ) : ℚ) * (1/10)) ∧
    (tickRun exampleParams 2).comp.simulationState.displacement =
      exampleParams.initialVelocity * (((2 : ℕ) : ℚ) * (1/10)) +
        (1/2) * exampleParams.gravity * (((2 : ℕ) : ℚ) * (1/10))^2 ∧
    (tickRun exampleParams 2).comp.simulationState.currentHeight =
      max 0 (exampleParams.initialHeight -
        (exampleParams.initialVelocity * (((2 : ℕ) : ℚ) * (1/10)) +
          (1/2) * exampleParams.gravity * (((2 : ℕ) : ℚ) * (1/10))^2)) :=
  freefall_C1 exampleParams 2 (by norm_num [exampleParams]) (by norm_num [exampleParams])
    (by norm_num [exampleParams])
    (by norm_num [tickRun, runOps, applyOp, initDriver, startSimulation, restartSimulation,
      tickOnce, tickHeight, tickDisplacement, tickVelocity, exampleParams, List.replicate])

lemma runOps_height_nonneg (p : Params) (ops : List SimOp) : ∀ d : DriverState,
    (∀ r ∈ d.comp.dataHistory, 0 ≤ r.height) →
    ∀ r ∈ (runOps p ops d).comp.dataHistory, 0 ≤ r.height := by
  induction ops with
  | nil => intro d h; exact h
  | cons op t ih =>
    intro d h
    rw [show runOps p (op :: t) d = runOps p t (applyOp p op d) from rfl]
    refine ih (applyOp p op d) ?_
    cases op with
    | start =>
      cases hb : d.comp.simulationState.isRunning with
      | true => simpa [applyOp, hb] using h
      | false => simp [applyOp, hb, startSimulation]
    | tick =>
      cases hb : d.comp.simulationState.isRunning with
      | false => simpa [applyOp, hb] using h
      | true =>
        rw [applyOp_tick_running p d hb]
        dsimp only
        rw [(tickOnce_spec p d.comp d.elapsed).2.1]
        intro r hr
        rcases List.mem_append.mp hr with hmem | hmem
        · exact h r hmem
        · have : r = mkRecord p (d.elapsed + 1/10) := by simpa using hmem
          rw [this]
          exact round2_nonneg _ (le_max_left 0 _)
    | reset => simp [applyOp, restartSimulation]

lemma tick_stop_iff (p : Params) (d : DriverState)
    (hr : d.comp.simulationState.isRunning = true) :
    ((applyOp p SimOp.tick d).comp.simulationState.isRunning = false ↔
      (applyOp p SimOp.tick d).comp.simulationState.currentHeight ≤ 1/1000) := by
  rw [applyOp_tick_running p d hr]
  dsimp only
  obtain ⟨-, -, -, -, -, hh, -, hir⟩ := tickOnce_spec p d.comp d.elapsed
  rw [hh, hir, hr]
  split_ifs with h
  · exact iff_of_true rfl h
  · exact iff_of_false (by simp) h

/-- Claim C2: along any event sequence no record with negative height
is ever in the history; while the driver runs, a tick stops it exactly
when the newly computed height is `≤ 0.001`; and once stopped, a timer
firing changes nothing (the interval has been cleared), so the driver
stops at the first tick whose height reaches the threshold. -/
theorem freefall_C2 (p : Params) (ops : List SimOp) :
    (∀ r ∈ (runOps p ops (initDriver p)).comp.dataHistory, 0 ≤ r.height) ∧
    ((runOps p ops (initDriver p)).comp.simulationState.isRunning = true →
      ((applyOp p SimOp.tick (runOps p ops (initDriver p))).comp.simulationState.isRunning = false
        ↔ (applyOp p SimOp.tick
            (runOps p ops (initDriver p))).comp.simulationState.currentHeight ≤ 1/1000)) ∧
    ((runOps p ops (initDriver p)).comp.simulationState.isRunning = false →
      applyOp p SimOp.tick (runOps p ops (initDriver p)) = runOps p ops (initDriver p)) := by
  refine ⟨?_, ?_, ?_⟩
  · exact runOps_height_nonneg p ops (initDriver p) (by simp [initDriver, restartSimulation])
  · intro hr; exact tick_stop_iff p _ hr
  · intro hr; exact applyOp_tick_not_running p _ hr

theorem freefall_C2_witness :
    applyOp exampleParams SimOp.tick (runOps exampleParams [] (initDriver exampleParams)) =
      runOps exampleParams [] (initDriver exampleParams) :=
  (freefall_C2 exampleParams []).2.2 rfl

/-- Claim C8: after `k` executed ticks of a run during which ground
contact has not occurred (the driver is still running), the history has
exactly `k` records; a reset leaves the history empty. -/
theorem freefall_C8 (p : Params) (n : ℕ) (d : DriverState)
    (hrun : (tickRun p n).comp.simulationState.isRunning = true) :
    (tickRun p n).comp.dataHistory.length = n ∧
    (applyOp p SimOp.reset d).comp.dataHistory.length = 0 := by
  obtain ⟨k, -, hlen, -, himp, -⟩ := tickRun_inv p n
  exact ⟨by rw [hlen, himp hrun], by simp [applyOp, restartSimulation]⟩

theorem freefall_C8_witness :
    (tickRun exampleParams 1).comp.dataHistory.length = 1 ∧
    (applyOp exampleParams SimOp.reset (initDriver exampleParams)).comp.dataHistory.length = 0 :=
  freefall_C8 exampleParams 1 (initDriver exampleParams)
    (by norm_num [tickRun, runOps, applyOp, initDriver, startSimulation, restartSimulation,
      tickOnce, tickHeight, tickDisplacement, tickVelocity, exampleParams, List.replicate])

/-! ### The trail buffer -/

lemma pushTrail_window (ys xs : List ℚ) (y : ℚ)
    (hxs : xs = ys.drop (ys.length - 30)) :
    pushTrail xs y = (ys ++ [y]).drop (ys.length + 1 - 30) := by
  subst hxs
  unfold pushTrail
  dsimp only
  have hlen : (ys.drop (ys.length - 30)).length = ys.length - (ys.length - 30) :=
    List.length_drop _ _
  by_cases h : ys.length < 30
  · have h0 : ys.length - 30 = 0 := by omega
    have h1 : ys.length + 1 - 30 = 0 := by omega
    rw [h0, h1, List.drop_zero, List.drop_zero]
    rw [if_neg (by simp [List.length_append]; omega)]
  · have h30 : (ys.drop (ys.length - 30)).length = 30 := by omega
    rw [if_pos (by simp [List.length_append, h30])]
    have hlen2 : (ys.drop (ys.length - 30) ++ [y]).length - 30 = 1 := by
      simp [List.length_append, h30]
    rw [hlen2]
    rw [List.drop_append_of_le_length (by omega : 1 ≤ (ys.drop (ys.length - 30)).length),
      List.drop_drop,
      List.drop_append_of_le_length (by omega : ys.length + 1 - 30 ≤ ys.length)]
    congr 2
    omega

lemma runOps_trail (p : Params) (ops : List SimOp) : ∀ d : DriverState,
    d.comp.trail = d.appended.drop (d.appended.length - 30) →
    (runOps p ops d).comp.trail =
      (runOps p ops d).appended.drop ((runOps p ops d).appended.length - 30) := by
  induction ops with
  | nil => intro d h; exact h
  | cons op t ih =>
    intro d h
    rw [show runOps p (op :: t) d = runOps p t (applyOp p op d) from rfl]
    refine ih (applyOp p op d) ?_
    cases op with
    | start =>
      cases hb : d.comp.simulationState.isRunning with
      | true => simpa [applyOp, hb] using h
      | false => simp [applyOp, hb, startSimulation]
    | tick =>
      cases hb : d.comp.simulationState.isRunning with
      | false => simpa [applyOp, hb] using h
      | true =>
        rw [applyOp_tick_running p d hb]
        dsimp only
        obtain ⟨-, -, -, -, -, -, htr, -⟩ := tickOnce_spec p d.comp d.elapsed
        rw [htr, List.length_append]
        exact pushTrail_window d.appended d.comp.trail _ h
    | reset => simp [applyOp, restartSimulation]

/-- Claim C7: after any sequence of start, tick and reset events the
trail never holds more than 30 entries, and it is exactly the suffix of
the at-most-30 most recently appended ball positions, in append order
(oldest entries evicted first). -/
theorem freefall_C7 (p : Params) (ops : List SimOp) :
    (runOps p ops (initDriver p)).comp.trail.length ≤ 30 ∧
    (runOps p ops (initDriver p)).comp.trail =
      (runOps p ops (initDriver p)).appended.drop
        ((runOps p ops (initDriver p)).appended.length - 30) := by
  have h := runOps_trail p ops (initDriver p) rfl
  refine ⟨?_, h⟩
  rw [h, List.length_drop]
  omega

/-! ### CSV serialization -/

lemma digitCharAux_digit : ∀ k, k < 10 →
    48 ≤ (digitCharAux k).toNat ∧ (digitCharAux k).toNat ≤ 57 := by decide

lemma digitChar_digit (d : ℕ) : 48 ≤ (digitChar d).toNat ∧ (digitChar d).toNat ≤ 57 :=
  digitCharAux_digit (d % 10) (Nat.mod_lt _ (by omega))

lemma natDigitsRev_digit : ∀ n : ℕ, ∀ c ∈ natDigitsRev n,
    48 ≤ c.toNat ∧ c.toNat ≤ 57 := by
  intro n
  induction n using Nat.strong_induction_on with
  | _ n ih =>
    rw [natDigitsRev]
    split_ifs with h
    · intro c hc
      rw [List.mem_singleton] at hc
      subst hc
      exact digitChar_digit n
    · intro c hc
      rcases List.mem_cons.mp hc with h1 | h1
      · subst h1; exact digitChar_digit _
      · exact ih (n / 10) (Nat.div_lt_self (by omega) (by omega)) c h1

lemma natStr_digit (n : ℕ) : ∀ c ∈ natStr n, 48 ≤ c.toNat ∧ c.toNat ≤ 57 := by
  intro c hc
  exact natDigitsRev_digit n c (List.mem_reverse.mp hc)

lemma fmtNumber_chars (q : ℚ) :
    ∀ c ∈ fmtNumber q, (48 ≤ c.toNat ∧ c.toNat ≤ 57) ∨ c = '-' ∨ c = '.' := by
  unfold fmtNumber
  dsimp only
  intro c hc
  rcases List.mem_append.mp hc with h1 | h1
  · rcases List.mem_append.mp h1 with h2 | h2
    · split_ifs at h2
      · rw [List.mem_singleton] at h2; exact Or.inr (Or.inl h2)
      · simp at h2
    · exact Or.inl (natStr_digit _ c h2)
  · split_ifs at h1
    · simp at h1
    · rcases List.mem_cons.mp h1 with h2 | h2
      · exact Or.inr (Or.inr h2)
      · exact Or.inl (natStr_digit _ c h2)
    · rcases List.mem_cons.mp h1 with h2 | h2
      · exact Or.inr (Or.inr h2)
      · rcases List.mem_cons.mp h2 with h3 | h3
        · subst h3; exact Or.inl (by decide)
        · exact Or.inl (natStr_digit _ c h3)
    · rcases List.mem_cons.mp h1 with h2 | h2
      · exact Or.inr (Or.inr h2)
      · exact Or.inl (natStr_digit _ c h2)

lemma natStr_count_dot (n : ℕ) : (natStr n).count '.' = 0 :=
  List.count_eq_zero.mpr (fun hmem => absurd (natStr_digit n _ hmem).1 (by decide))

lemma fmtNumber_count_dot (q : ℚ) : (fmtNumber q).count '.' ≤ 1 := by
  unfold fmtNumber
  dsimp only
  rw [List.count_append, List.count_append]
  have hsign : (if Int.floor (q * 100) < 0 then ['-'] else ([] : List Char)).count '.' = 0 := by
    split_ifs <;> decide
  rw [hsign, natStr_count_dot]
  split_ifs
  · simp
  · simp [List.count_cons, natStr_count_dot]
  · simp [List.count_cons, natStr_count_dot]
  · simp [List.count_cons, natStr_count_dot]

lemma replaceDot_chars (l : List Char) (P : Char → Prop)
    (hP : ∀ c ∈ l, P c) (hcomma : P ',') : ∀ c ∈ replaceDot l, P c := by
  induction l with
  | nil => simp [replaceDot]
  | cons a t ih =>
    simp only [replaceDot]
    split_ifs with ha
    · intro c hc
      rcases List.mem_cons.mp hc with h1 | h1
      · subst h1; exact hcomma
      · exact hP c (List.mem_cons_of_mem _ h1)
    · intro c hc
      rcases List.mem_cons.mp hc with h1 | h1
      · subst h1; exact hP c (by simp)
      · exact ih (fun c hc => hP c (List.mem_cons_of_mem _ hc)) c h1

lemma replaceDot_no_dot (l : List Char) (h : l.count '.' ≤ 1) : '.' ∉ replaceDot l := by
  induction l with
  | nil => simp [replaceDot]
  | cons a t ih =>
    simp only [replaceDot]
    split_ifs with ha
    · intro hc
      rcases List.mem_cons.mp hc with h1 | h1
      · exact absurd h1 (by decide)
      · subst ha
        rw [List.count_cons] at h
        simp only [beq_self_eq_true, if_true] at h
        exact absurd h1 (List.count_eq_zero.mp (by omega))
    · intro hc
      rcases List.mem_cons.mp hc with h1 | h1
      · exact ha h1.symm
      · have ht : t.count '.' ≤ 1 := by
          rw [List.count_cons] at h
          split_ifs at h <;> omega
        exact ih ht h1

lemma csvField_safe (q : ℚ) : ';' ∉ csvField q ∧ '\n' ∉ csvField q ∧ '.' ∉ csvField q := by
  have hdot : '.' ∉ csvField q := replaceDot_no_dot _ (fmtNumber_count_dot q)
  have hsafe : ∀ c ∈ csvField q, c ≠ ';' ∧ c ≠ '\n' := by
    unfold csvField
    refine replaceDot_chars _ (fun c => c ≠ ';' ∧ c ≠ '\n') ?_ (by decide)
    intro c hc
    rcases fmtNumber_chars q c hc with hd | h1 | h1
    · constructor <;> intro he <;> subst he
      · exact absurd hd.2 (by decide)
      · exact absurd hd.1 (by decide)
    · subst h1; exact ⟨by decide, by decide⟩
    · subst h1; exact ⟨by decide, by decide⟩
  exact ⟨fun hc => (hsafe _ hc).1 rfl, fun hc => (hsafe _ hc).2 rfl, hdot⟩

lemma joinSep_mem (sep : Char) : ∀ fs : List (List Char), ∀ c ∈ joinSep sep fs,
    c = sep ∨ ∃ f ∈ fs, c ∈ f := by
  intro fs
  induction fs with
  | nil => simp [joinSep]
  | cons f t ih =>
    cases t with
    | nil =>
      intro c hc
      exact Or.inr ⟨f, by simp, by simpa [joinSep] using hc⟩
    | cons g u =>
      intro c hc
      rw [show joinSep sep (f :: g :: u) = f ++ sep :: joinSep sep (g :: u) from rfl] at hc
      rcases List.mem_append.mp hc with h1 | h1
      · exact Or.inr ⟨f, by simp, h1⟩
      · rcases List.mem_cons.mp h1 with h2 | h2
        · exact Or.inl h2
        · rcases ih c h2 with h3 | ⟨f', hf', hcf'⟩
          · exact Or.inl h3
          · exact Or.inr ⟨f', List.mem_cons_of_mem _ hf', hcf'⟩

lemma joinSep_count (sep : Char) : ∀ fs : List (List Char),
    (∀ f ∈ fs, sep ∉ f) → (joinSep sep fs).count sep = fs.length - 1 := by
  intro fs
  induction fs with
  | nil => intro _; simp [joinSep]
  | cons f t ih =>
    intro hall
    cases t with
    | nil => simp [joinSep, List.count_eq_zero.mpr (hall f (by simp))]
    | cons g u =>
      rw [show joinSep sep (f :: g :: u) = f ++ sep :: joinSep sep (g :: u) from rfl]
      rw [List.count_append, List.count_cons,
        List.count_eq_zero.mpr (hall f (by simp)),
        ih (fun f' hf' => hall f' (List.mem_cons_of_mem _ hf'))]
      simp

/-- Claim C4: the export serializes a history of `k` records into
`k + 1` newline-joined lines (one header line, then one line per record
in insertion order); every line is the semicolon-join of exactly six
fields, none of which contains a semicolon, a newline, or a period (the
decimal separator having been replaced by a comma). -/
theorem freefall_C4 (h : List SimulationData) :
    (csvLines h).length = h.length + 1 ∧
    (csvContent h).count '\n' = h.length ∧
    (∀ l ∈ csvLines h, '\n' ∉ l) ∧
    (∀ l ∈ csvLines h, ∃ fs : List (List Char), fs.length = 6 ∧ l = joinSep ';' fs ∧
      ∀ f ∈ fs, ';' ∉ f ∧ '\n' ∉ f ∧ '.' ∉ f) := by
  have hfields : ∀ l ∈ csvLines h, ∃ fs : List (List Char), fs.length = 6 ∧
      l = joinSep ';' fs ∧ ∀ f ∈ fs, ';' ∉ f ∧ '\n' ∉ f ∧ '.' ∉ f := by
    intro l hl
    rcases List.mem_cons.mp hl with h1 | h1
    · exact ⟨csvHeaders, rfl, h1, by decide⟩
    · obtain ⟨r, hr, hrl⟩ := List.mem_map.mp h1
      refine ⟨csvRow r, rfl, hrl.symm, ?_⟩
      intro f hf
      simp only [csvRow, List.mem_cons, List.not_mem_nil, or_false] at hf
      rcases hf with rfl | rfl | rfl | rfl | rfl | rfl <;> exact csvField_safe _
  have hnl : ∀ l ∈ csvLines h, '\n' ∉ l := by
    intro l hl hmem
    obtain ⟨fs, -, hjoin, hprops⟩ := hfields l hl
    rw [hjoin] at hmem
    rcases joinSep_mem ';' fs _ hmem with h1 | ⟨f, hf, hcf⟩
    · exact absurd h1 (by decide)
    · exact (hprops f hf).2.1 hcf
  refine ⟨by simp [csvLines], ?_, hnl, hfields⟩
  rw [show csvContent h = joinSep '\n' (csvLines h) from rfl,
    joinSep_count '\n' (csvLines h) hnl]
  simp [csvLines]

theorem freefall_C4_witness : (csvLines exampleHistory).length = 3 + 1 :=
  (freefall_C4 exampleHistory).1

end FreeFall
